import Mathlib

/-!
Verification of the resilient batch-evaluation engine of the
Multimodal-Visual-Persuasion-Analysis-Agent repository.

The development shallowly embeds `src/run_fast.py` (and, for the
refinement claim, `src/run_pvp__slow.py`): pair discovery, task
enumeration, the retry/backoff controller `analyze_pair_sequential`,
the CSV result sink and the batch driver in `main`.  External effects
(the OpenAI call, `json.loads`, `random.uniform`, the directory
listing, the regex engine) are passed in as explicit oracle
parameters; everything the program itself computes is translated
directly from the source.
-/

/-- A persona profile: `{"id": ..., "desc": ..., "bias": ...}`. -/
structure Persona where
  id : String
  desc : String
  bias : String
deriving DecidableEq, Repr

/-- `PERSONAS` of `run_fast.py` (lines 27-40): the fixed roster of 12 personas. -/
def PERSONAS : List Persona := [
  { id := "P1_Traditionalist", desc := "Values heritage, duty.", bias := "Prefers Authority, Familiarity." },
  { id := "P2_Trendsetter", desc := "Values status, FOMO.", bias := "Prefers Social Proof, Scarcity." },
  { id := "P3_Safety_Anxious", desc := "Risk-averse.", bias := "Dislikes Scarcity. Prefers Trustworthiness." },
  { id := "P4_Elite_Luxury", desc := "Values exclusivity.", bias := "Prefers Scarcity. Dislikes Social Proof." },
  { id := "P5_Skeptic", desc := "Needs evidence.", bias := "Prefers Data. Dislikes Emotional Appeal." },
  { id := "P6_Pragmatist", desc := "Values utility.", bias := "Prefers Clear shots. Dislikes artistic fluff." },
  { id := "P7_Community", desc := "Values belonging.", bias := "Prefers Social Proof." },
  { id := "P8_Individualist", desc := "Values uniqueness.", bias := "Dislikes Social Proof." },
  { id := "P9_Futurist", desc := "Loves innovation.", bias := "Prefers Novelty." },
  { id := "P10_Naturalist", desc := "Values purity.", bias := "Dislikes Artificiality." },
  { id := "P11_Busy_Pro", desc := "Values efficiency.", bias := "Prefers Availability." },
  { id := "P12_Jester", desc := "Values humor.", bias := "Prefers Humor." }]

/-- `PERSONAS` of `run_pvp__slow.py` (lines 28-41): same 12 persona ids, longer texts. -/
def PERSONAS_slow : List Persona := [
  { id := "P1_Traditionalist", desc := "Values heritage, duty, and authority. Skeptical of modern hype.", bias := "Prefers Authority, Familiarity." },
  { id := "P2_Trendsetter", desc := "Values social status, FOMO, and being first.", bias := "Prefers Social Proof, Scarcity, Novelty." },
  { id := "P3_Safety_Anxious", desc := "Risk-averse, prioritizes stability and safety.", bias := "Dislikes Scarcity (stressful). Prefers Trustworthiness, Neutrality." },
  { id := "P4_Elite_Luxury", desc := "Values exclusivity and uniqueness. Dislikes crowds.", bias := "Prefers Scarcity (if exclusive). Dislikes Social Proof (common)." },
  { id := "P5_Skeptic", desc := "Needs evidence and data. Rejects emotional manipulation.", bias := "Prefers Trustworthiness (Data). Dislikes Emotional Appeal." },
  { id := "P6_Pragmatist", desc := "Values utility and clear product views.", bias := "Prefers Neutral/Clear shots. Dislikes artistic fluff." },
  { id := "P7_Community", desc := "Values belonging and family connection.", bias := "Prefers Social Proof, Emotional Appeal." },
  { id := "P8_Individualist", desc := "Values uniqueness and personal identity.", bias := "Prefers Personal Identity. Dislikes Social Proof." },
  { id := "P9_Futurist", desc := "Loves innovation and sci-fi aesthetics.", bias := "Prefers Novelty. Dislikes Familiarity." },
  { id := "P10_Naturalist", desc := "Values purity, nature, and organic cues.", bias := "Prefers Trustworthiness (Nature). Dislikes Artificiality." },
  { id := "P11_Busy_Pro", desc := "Values efficiency and availability.", bias := "Prefers Availability. Dislikes lines/wait." },
  { id := "P12_Jester", desc := "Values entertainment and humor.", bias := "Prefers Humor. Bored by clinical images." }]

/-- `PAIR_STRATEGY` (lines 42-45 of `run_fast.py`, identical in the slow variant). -/
def PAIR_STRATEGY : List (Nat × String) := [
  (1, "Authority"), (2, "Social Proof"), (3, "Scarcity"), (4, "Emotional Appeal"),
  (5, "Personal Identity"), (6, "Humor"), (7, "Trustworthiness"), (8, "Familiarity"),
  (9, "Novelty")]

/-- `PAIR_STRATEGY.get(idx, "Unknown")`. -/
def strategyFor (idx : Nat) : String :=
  (((PAIR_STRATEGY.find? (fun e => e.1 == idx)).map (fun e => e.2)).getD "Unknown")

/-- `IMAGE_DIR` (line 20 of `run_fast.py`). -/
def IMAGE_DIR : String := "images_from_docx"

/-- `IMAGE_DIR` (line 21 of `run_pvp__slow.py`). -/
def IMAGE_DIR_slow : String := "images_from_docx"

/-- Source text of the discovery regex in `run_fast.py` line 203. -/
def pairPattern : String := ".*pair\\s*(\\d+).*([abAB])\\.(png|jpg|jpeg)$"

/-- Source text of the discovery regex in `run_pvp__slow.py` line 200. -/
def pairPattern_slow : String := ".*pair\\s*(\\d+).*([abAB])\\.(png|jpg|jpeg)$"

/-- One entry of the `pairs` dict: the optional "A" and "B" image paths. -/
structure PairSides where
  sideA : Option String
  sideB : Option String
deriving DecidableEq, Repr

/-- `os.path.join IMAGE_DIR fname`. -/
def pathJoin (dir fname : String) : String := dir ++ "/" ++ fname

/-- `pairs[idx][side] = path` on one dict entry (side already uppercased). -/
def updateSide (s : PairSides) (side : Char) (path : String) : PairSides :=
  if side = 'A' then { s with sideA := some path }
  else if side = 'B' then { s with sideB := some path }
  else s

/-- Dict update on the association list holding the `pairs` dict
(insertion order preserved, existing key overwritten in place). -/
def setPair : List (Nat × PairSides) → Nat → PairSides → List (Nat × PairSides)
  | [], i, s => [(i, s)]
  | (j, t) :: rest, i, s =>
      if j = i then (i, s) :: rest else (j, t) :: setPair rest i s

/-- `pairs[idx]` with the `if idx not in pairs: pairs[idx] = {}` default. -/
def getPair (pairs : List (Nat × PairSides)) (i : Nat) : PairSides :=
  ((pairs.find? (fun e => e.1 == i)).map (fun e => e.2)).getD ⟨none, none⟩

/-- `pairs[idx]` as the plain dict lookup (no default). -/
def lookupPair (pairs : List (Nat × PairSides)) (i : Nat) : Option PairSides :=
  (pairs.find? (fun e => e.1 == i)).map (fun e => e.2)

/-- Pair discovery loop of `run_fast.py` `main` (lines 210-215).  The regex
engine is an oracle `matcher` mapping a filename to the captured pair
index and side character when `pattern.match` succeeds. -/
def discoverPairs (matcher : String → Option (Nat × Char)) (files : List String) :
    List (Nat × PairSides) :=
  files.foldl (fun pairs fname =>
    match matcher fname with
    | some (idx, side) =>
        setPair pairs idx (updateSide (getPair pairs idx) side.toUpper (pathJoin IMAGE_DIR fname))
    | none => pairs) []

/-- Pair discovery loop of `run_pvp__slow.py` `main` (lines 207-212), identical code. -/
def discoverPairs_slow (matcher : String → Option (Nat × Char)) (files : List String) :
    List (Nat × PairSides) :=
  files.foldl (fun pairs fname =>
    match matcher fname with
    | some (idx, side) =>
        setPair pairs idx (updateSide (getPair pairs idx) side.toUpper (pathJoin IMAGE_DIR_slow fname))
    | none => pairs) []

/-- `"A" not in pairs[idx] or "B" not in pairs[idx]` negated: the eligibility
filter of `run_fast.py` line 233 (identical at line 223 of the slow variant). -/
def eligible (s : PairSides) : Bool := s.sideA.isSome && s.sideB.isSome

/-- `sorted(pairs.keys())`: the ascending sort of the dict keys. -/
def sortedKeys (pairs : List (Nat × PairSides)) : List Nat :=
  (pairs.map Prod.fst).insertionSort (fun a b => a ≤ b)

/-- The tasks contributed by one pair id: skip if a side is missing
(line 233), otherwise iterate the persona roster (line 239). -/
def tasksForKey (pairs : List (Nat × PairSides)) (personas : List Persona) (idx : Nat) :
    List (Nat × Persona) :=
  match lookupPair pairs idx with
  | some s => if eligible s then personas.map (fun p => (idx, p)) else []
  | none => []

/-- The ordered task sequence enumerated by the nested loops of
`run_fast.py` `main` (lines 232-239): sorted pair ids, eligibility
filter, then the persona roster in order. -/
def enumerateTasks (pairs : List (Nat × PairSides)) : List (Nat × Persona) :=
  (sortedKeys pairs).flatMap (tasksForKey pairs PERSONAS)

/-- The task sequence of `run_pvp__slow.py` `main` (lines 222-230), identical
loop structure over its own persona roster. -/
def enumerateTasks_slow (pairs : List (Nat × PairSides)) : List (Nat × Persona) :=
  (sortedKeys pairs).flatMap (tasksForKey pairs PERSONAS_slow)

/-- What one attempt of the `client.chat.completions.create` call (plus the
`response.choices[0].message.content` access) does, as seen by the
`try`/`except` blocks of `analyze_pair_sequential`:
either a `RateLimitError`, an `APIError`, some other exception, or a
response whose content is `none` (null) or a string. -/
inductive Resp where
  | rateLimit
  | apiErr
  | fatal
  | respond (content : Option String)
deriving DecidableEq, Repr

/-- A parsed JSON object, reduced to its string-valued field map — all the
code reads from it is `data.get(key)`. -/
abbrev Jobj := List (String × String)

/-- `data.get(k)`: `none` when the field is absent. -/
def jget (d : Jobj) (k : String) : Option String :=
  ((d.find? (fun e => e.1 == k)).map (fun e => e.2))

/-- Python `str(...)` applied to a `data.get` result: `str(None)` is `"None"`. -/
def pyStr : Option String → String
  | none => "None"
  | some s => s

/-- `if not content`: content is falsy when null or the empty string. -/
def emptyContent : Option String → Bool
  | none => true
  | some s => s.isEmpty

/-- The arguments of `analyze_pair_sequential(idx, strategy, img_a_path, img_b_path, persona)`. -/
structure TaskIn where
  idx : Nat
  strategy : String
  imgA : String
  imgB : String
  persona : Persona
deriving DecidableEq, Repr

/-- The dict returned by `analyze_pair_sequential` on success (lines 106-115)
and written as one CSV row. -/
structure Record where
  pairId : Nat
  strategy : String
  personaId : String
  choice : Option String
  rationale : Option String
  difficultyRanking : String
  difficultyReasoning : Option String
  status : String
deriving DecidableEq, Repr

/-- The success record built at lines 106-115 from the parsed JSON object. -/
def mkRecord (t : TaskIn) (data : Jobj) : Record :=
  { pairId := t.idx
    strategy := t.strategy
    personaId := t.persona.id
    choice := jget data "chosen_image"
    rationale := jget data "rationale"
    difficultyRanking := pyStr (jget data "difficulty_ranking")
    difficultyReasoning := jget data "difficulty_reason"
    status := "Success" }

/-- `max_retries = 5` (line 76). -/
def max_retries : Nat := 5

/-- The rate-limit backoff duration of line 118:
`wait_time = (5 * (attempt + 1)) + random.uniform(1, 3)`, with the
`random.uniform(1, 3)` draw supplied by the `jitter` oracle. -/
def backoff (jitter : Nat → ℚ) (attempt : Nat) : ℚ :=
  5 * ((attempt : ℚ) + 1) + jitter attempt

/-- The body of the `for attempt in range(max_retries)` loop of
`analyze_pair_sequential` (lines 77-131).  `env` gives the outcome of the
service call at each attempt, `parse` is the `json.loads` oracle
(`none` = raises), `jitter` is the `random.uniform(1, 3)` draw at each
attempt.  Returns the function result together with the list of
`time.sleep` durations, in order. -/
def runAttempts (env : Nat → Resp) (parse : String → Option Jobj) (jitter : Nat → ℚ)
    (t : TaskIn) : Nat → Nat → Option Record × List ℚ
  | _, 0 => (none, [])
  | attempt, rem + 1 =>
    match env attempt with
    | Resp.rateLimit =>
        let r := runAttempts env parse jitter t (attempt + 1) rem
        (r.1, backoff jitter attempt :: r.2)
    | Resp.apiErr =>
        let r := runAttempts env parse jitter t (attempt + 1) rem
        (r.1, 5 :: r.2)
    | Resp.fatal => (none, [])
    | Resp.respond c =>
        if emptyContent c then (none, [])
        else
          match parse (c.getD "") with
          | none => (none, [])
          | some data => (some (mkRecord t data), [])

/-- `analyze_pair_sequential` as a whole: run the attempt loop from
attempt 0 with `max_retries` iterations remaining. -/
def analyze_pair_sequential (env : Nat → Resp) (parse : String → Option Jobj)
    (jitter : Nat → ℚ) (t : TaskIn) : Option Record × List ℚ :=
  runAttempts env parse jitter t 0 max_retries

/-- One line of the output CSV file: the header row or a data row. -/
inductive CsvLine where
  | header
  | row (r : Record)
deriving DecidableEq, Repr

/-- The buffered CSV file handle plus the `all_results` accumulator:
`durable` is what has reached disk, `buffer` what the writer has emitted
but not yet flushed. -/
structure Sink where
  durable : List CsvLine
  buffer : List CsvLine
  acc : List Record
deriving DecidableEq, Repr

/-- `writer.writerow` / `writer.writeheader`: emit one line into the buffer. -/
def writeLine (s : Sink) (l : CsvLine) : Sink := { s with buffer := s.buffer ++ [l] }

/-- `f.flush()` (and the implicit flush when the `with open` block closes). -/
def flushSink (s : Sink) : Sink := { s with durable := s.durable ++ s.buffer, buffer := [] }

/-- The driver state: the sink plus the number of `time.sleep(1)` pacing
delays performed so far. -/
structure DrvState where
  sink : Sink
  pace : Nat
deriving DecidableEq, Repr

/-- The per-task body of the persona loop (lines 240-248 of `run_fast.py`):
call the controller; on a result, `writer.writerow(result)`, `f.flush()`,
`all_results.append(result)`; in every case `time.sleep(1)`. -/
def driverStep (ctrl : Nat → String → Persona → Option Record) (st : DrvState)
    (t : Nat × Persona) : DrvState :=
  match ctrl t.1 (strategyFor t.1) t.2 with
  | some r =>
      let s1 := writeLine st.sink (CsvLine.row r)
      let s2 := flushSink s1
      let s3 := { s2 with acc := s2.acc ++ [r] }
      { sink := s3, pace := st.pace + 1 }
  | none => { st with pace := st.pace + 1 }

/-- The whole task loop. -/
def runTasks (ctrl : Nat → String → Persona → Option Record)
    (tasks : List (Nat × Persona)) (st : DrvState) : DrvState :=
  tasks.foldl (driverStep ctrl) st

/-- The sink right after `open(OUTPUT_CSV, "w", ...)` (which truncates or
creates the file, so nothing durable remains) and the conditional
`writer.writeheader()` guarded by `write_header = not os.path.exists(OUTPUT_CSV)`
(lines 223-229).  `initFile` is the pre-run file state: `none` when the
file does not exist. -/
def initialSink (initFile : Option (List CsvLine)) : Sink :=
  { durable := []
    buffer := if initFile.isNone then [CsvLine.header] else []
    acc := [] }

/-- The observable result of one run of `main`. -/
structure MainResult where
  fileAfter : Option (List CsvLine)
  allResults : List Record
  paceSleeps : Nat
  earlyReturn : Bool
deriving DecidableEq, Repr

/-- `main` of `run_fast.py` (lines 199-252), up to report generation:
check `IMAGE_DIR` exists (early return when not, leaving the output file
untouched), discover pairs, open the CSV, run the task loop, close the
file (final flush).  The controller is abstracted as `ctrl`, fed the pair
id, its strategy label and the persona exactly as line 240 does. -/
def mainRun (dirExists : Bool) (matcher : String → Option (Nat × Char))
    (files : List String) (ctrl : Nat → String → Persona → Option Record)
    (initFile : Option (List CsvLine)) : MainResult :=
  if dirExists then
    let pairs := discoverPairs matcher files
    let fin := runTasks ctrl (enumerateTasks pairs) { sink := initialSink initFile, pace := 0 }
    let closed := flushSink fin.sink
    { fileAfter := some closed.durable
      allResults := closed.acc
      paceSleeps := fin.pace
      earlyReturn := false }
  else
    { fileAfter := initFile, allResults := [], paceSleeps := 0, earlyReturn := true }

/-- A concrete roster entry (the first persona), used in concrete scenarios. -/
def persona1 : Persona :=
  { id := "P1_Traditionalist", desc := "Values heritage, duty.",
    bias := "Prefers Authority, Familiarity." }

/-- A concrete controller input for pair 1 under `persona1`. -/
def t0 : TaskIn :=
  { idx := 1, strategy := "Authority", imgA := "images_from_docx/pair1a.png",
    imgB := "images_from_docx/pair1b.png", persona := persona1 }

/-- A concrete regex oracle recognising the two files of pair 1. -/
def matcher0 : String → Option (Nat × Char) := fun f =>
  if f = "pair1a.png" then some (1, 'a')
  else if f = "pair1b.png" then some (1, 'b')
  else none

/-- A concrete directory listing holding both sides of pair 1. -/
def files0 : List String := ["pair1a.png", "pair1b.png"]

/-- A row persisted by a hypothetical earlier run of the batch. -/
def rec0 : Record :=
  { pairId := 1, strategy := "Authority", personaId := "P1_Traditionalist",
    choice := some "A", rationale := some "prior run rationale",
    difficultyRanking := "Easy", difficultyReasoning := some "prior reason",
    status := "Success" }

/-- The single row produced by the rerun in the concrete scenario. -/
def rec1 : Record :=
  { pairId := 1, strategy := "Authority", personaId := "P1_Traditionalist",
    choice := some "B", rationale := some "second run rationale",
    difficultyRanking := "Medium", difficultyReasoning := some "second reason",
    status := "Success" }

/-- A concrete controller: persona `P1_Traditionalist` succeeds with `rec1`,
every other task is skipped. -/
def ctrl1 : Nat → String → Persona → Option Record := fun _ _ p =>
  if p.id = "P1_Traditionalist" then some rec1 else none

/-- A concrete controller producing one success record per task, tagged with
the task's own pair id and persona id. -/
def ctrl7 : Nat → String → Persona → Option Record := fun i _ p =>
  some { pairId := i, strategy := strategyFor i, personaId := p.id,
         choice := some "A", rationale := some "ok", difficultyRanking := "Easy",
         difficultyReasoning := some "ok", status := "Success" }

/-- A concrete service environment that always answers with the JSON text of
an empty object. -/
def env8 : Nat → Resp := fun _ => Resp.respond (some "\x7b\x7d")

/-- A concrete `json.loads` oracle: the empty-object text parses to the empty
field map, everything else fails to parse. -/
def parse8 : String → Option Jobj := fun s => if s = "\x7b\x7d" then some [] else none

/-- A concrete discovered pair map: pair 2 is missing side B, pair 1 has both
sides; keys arrive unsorted. -/
def pairs0 : List (Nat × PairSides) :=
  [(2, ⟨some "images_from_docx/pair2a.png", none⟩),
   (1, ⟨some "images_from_docx/pair1a.png", some "images_from_docx/pair1b.png"⟩)]

/-- A concrete environment raising a rate limit on the first two attempts and
answering well-formed content afterwards. -/
def env3 : Nat → Resp := fun i => if i < 2 then Resp.rateLimit else Resp.respond (some "ok")

/-- A concrete `json.loads` oracle for the content `"ok"`. -/
def parse3 : String → Option Jobj := fun s =>
  if s = "ok" then
    some [("chosen_image", "A"), ("rationale", "why"),
          ("difficulty_ranking", "Easy"), ("difficulty_reason", "clear")]
  else none

/-- The records produced by the successful tasks of a batch, in task order:
what `all_results` accumulates and what lands in the CSV as data rows. -/
def successRecs (ctrl : Nat → String → Persona → Option Record)
    (tasks : List (Nat × Persona)) : List Record :=
  tasks.filterMap (fun tk => ctrl tk.1 (strategyFor tk.1) tk.2)

/-- Whether a CSV line is the data row of the task with pair id `i` and
persona id `pid`. -/
def rowMatches (i : Nat) (pid : String) : CsvLine → Bool
  | CsvLine.row r => r.pairId == i && r.personaId == pid
  | CsvLine.header => false

/-- Claim C9: when the image-source directory is missing, `main` logs and
returns early — no exception, no task enumerated, no evaluation, and the
output file is left exactly as it was. -/
theorem c9_missing_dir_is_handled_early_return
    (matcher : String → Option (Nat × Char)) (files : List String)
    (ctrl : Nat → String → Persona → Option Record)
    (initFile : Option (List CsvLine)) :
    mainRun false matcher files ctrl initFile =
      { fileAfter := initFile, allResults := [], paceSleeps := 0, earlyReturn := true } := rfl

theorem tasksForKey_map_id (pairs : List (Nat × PairSides)) (i : Nat) :
    (tasksForKey pairs PERSONAS i).map (fun tk => (tk.1, tk.2.id)) =
      (tasksForKey pairs PERSONAS_slow i).map (fun tk => (tk.1, tk.2.id)) := by
  unfold tasksForKey
  cases lookupPair pairs i with
  | none => rfl
  | some s =>
      cases he : eligible s with
      | false => simp [he]
      | true =>
          simp only [he, if_true, List.map_map]
          rfl

/-- Claim C10: the two implementation variants agree on task enumeration —
the discovery regex source text is identical, discovery itself is the same
function of the regex oracle and the listing, the twelve persona ids
coincide in roster order, and for every discovered pair map both variants
enumerate the identical (pair id, persona id) sequence. -/
theorem c10_variants_enumerate_identical_tasks :
    pairPattern = pairPattern_slow ∧
    IMAGE_DIR = IMAGE_DIR_slow ∧
    (∀ matcher files, discoverPairs matcher files = discoverPairs_slow matcher files) ∧
    PERSONAS.map Persona.id = PERSONAS_slow.map Persona.id ∧
    (∀ pairs, (enumerateTasks pairs).map (fun tk => (tk.1, tk.2.id)) =
      (enumerateTasks_slow pairs).map (fun tk => (tk.1, tk.2.id))) := by
  refine ⟨rfl, rfl, fun m f => rfl, rfl, fun pairs => ?_⟩
  unfold enumerateTasks enumerateTasks_slow
  rw [List.map_flatMap, List.map_flatMap]
  exact List.flatMap_congr fun i _ => tasksForKey_map_id pairs i

/-- Claim C4: a response whose content is empty makes the controller return
the terminal skipped outcome at once — no retry, no backoff sleep —
whatever the environment would have answered on later attempts. -/
theorem c4_empty_content_skips_immediately
    (env : Nat → Resp) (parse : String → Option Jobj) (jitter : Nat → ℚ) (t : TaskIn)
    (c : Option String) (hc : env 0 = Resp.respond c) (he : emptyContent c = true) :
    analyze_pair_sequential env parse jitter t = (none, []) := by
  simp [analyze_pair_sequential, max_retries, runAttempts, hc, he]

theorem c4_empty_content_skips_immediately_witness :
    ((fun _ : Nat => Resp.respond (some "")) 0 = Resp.respond (some "") ∧
      emptyContent (some "") = true) ∧
    analyze_pair_sequential (fun _ => Resp.respond (some "")) (fun _ => none)
      (fun _ => 2) t0 = (none, []) :=
  ⟨⟨rfl, rfl⟩, c4_empty_content_skips_immediately _ _ _ _ (some "") rfl rfl⟩

theorem runAttempts_success_now (env : Nat → Resp) (parse : String → Option Jobj)
    (jitter : Nat → ℚ) (t : TaskIn) (att rem : Nat) (s : String) (data : Jobj)
    (h : env att = Resp.respond (some s)) (hne : s.isEmpty = false)
    (hp : parse s = some data) :
    runAttempts env parse jitter t att (rem + 1) = (some (mkRecord t data), []) := by
  simp [runAttempts, h, emptyContent, hne, hp]

theorem runAttempts_rateLimit_block (env : Nat → Resp) (parse : String → Option Jobj)
    (jitter : Nat → ℚ) (t : TaskIn) :
    ∀ (k att rem : Nat), k ≤ rem →
      (∀ i, i < k → env (att + i) = Resp.rateLimit) →
      runAttempts env parse jitter t att rem =
        ((runAttempts env parse jitter t (att + k) (rem - k)).1,
         (List.range k).map (fun i => backoff jitter (att + i)) ++
           (runAttempts env parse jitter t (att + k) (rem - k)).2) := by
  intro k
  induction k with
  | zero =>
      intro att rem _ _
      simp
  | succ n ih =>
      intro att rem hle henv
      obtain ⟨m, rfl⟩ : ∃ m, rem = m + 1 := ⟨rem - 1, by omega⟩
      have h0 : env att = Resp.rateLimit := by
        have := henv 0 (Nat.succ_pos n)
        simpa using this
      have hrec := ih (att + 1) m (by omega) (fun i hi => by
        have := henv (i + 1) (by omega)
        simpa [Nat.add_assoc, Nat.add_comm 1 i] using this)
      have harith1 : att + (n + 1) = att + 1 + n := by omega
      have harith2 : m + 1 - (n + 1) = m - n := by omega
      have hlist : (List.range (n + 1)).map (fun i => backoff jitter (att + i)) =
          backoff jitter att :: (List.range n).map (fun i => backoff jitter (att + 1 + i)) := by
        rw [List.range_succ_eq_map, List.map_cons, List.map_map]
        refine congrArg₂ _ (by simp) ?_
        refine List.map_congr_left fun a _ => ?_
        have : att + Nat.succ a = att + 1 + a := by omega
        simp [Function.comp, this]
      simp only [runAttempts, h0]
      rw [hrec, harith1, harith2, hlist]
      simp

theorem backoff_strictMono (jitter : Nat → ℚ)
    (hj : ∀ i, 1 ≤ jitter i ∧ jitter i ≤ 3) : StrictMono (backoff jitter) := by
  refine strictMono_nat_of_lt_succ fun n => ?_
  unfold backoff
  have h1 := (hj n).2
  have h2 := (hj (n + 1)).1
  push_cast
  linarith

/-- Claim C3: if the service rate-limits exactly k times (k below the budget)
and then answers well-formed content, the controller sleeps exactly k
times, each duration being the base delay scaled by the attempt number
plus the jitter draw, returns the verdict, and the sleep sequence is
strictly increasing for every jitter draw inside the `uniform(1, 3)` range. -/
theorem c3_rate_limited_k_times_then_verdict
    (env : Nat → Resp) (parse : String → Option Jobj) (jitter : Nat → ℚ) (t : TaskIn)
    (k : Nat) (s : String) (data : Jobj)
    (hk : k < max_retries)
    (hfail : ∀ i, i < k → env i = Resp.rateLimit)
    (hsucc : env k = Resp.respond (some s))
    (hne : s.isEmpty = false)
    (hparse : parse s = some data)
    (hj : ∀ i, 1 ≤ jitter i ∧ jitter i ≤ 3) :
    analyze_pair_sequential env parse jitter t =
      (some (mkRecord t data), (List.range k).map (backoff jitter)) ∧
    ((List.range k).map (backoff jitter)).length = k ∧
    ((List.range k).map (backoff jitter)).Chain' (· < ·) := by
  refine ⟨?_, by simp, ?_⟩
  · unfold analyze_pair_sequential
    have hb := runAttempts_rateLimit_block env parse jitter t k 0 max_retries
      (le_of_lt hk) (fun i hi => by simpa using hfail i hi)
    obtain ⟨m, hm⟩ : ∃ m, max_retries - k = m + 1 := ⟨max_retries - k - 1, by omega⟩
    rw [hb]
    simp only [Nat.zero_add]
    rw [hm, runAttempts_success_now env parse jitter t k m s data hsucc hne hparse]
    simp
  · have hmono := backoff_strictMono jitter hj
    have hp : List.Pairwise (· < ·) ((List.range k).map (backoff jitter)) :=
      List.pairwise_map.2 ((List.pairwise_lt_range k).imp fun h => hmono h)
    exact hp.chain'

theorem c3_rate_limited_k_times_then_verdict_witness :
    (2 < max_retries ∧
     (∀ i, i < 2 → env3 i = Resp.rateLimit) ∧
     env3 2 = Resp.respond (some "ok") ∧
     (∀ i : Nat, 1 ≤ (2 : ℚ) ∧ (2 : ℚ) ≤ 3)) ∧
    (analyze_pair_sequential env3 parse3 (fun _ => 2) t0 =
      (some (mkRecord t0 [("chosen_image", "A"), ("rationale", "why"),
        ("difficulty_ranking", "Easy"), ("difficulty_reason", "clear")]),
       (List.range 2).map (backoff (fun _ => 2))) ∧
     ((List.range 2).map (backoff (fun _ => 2))).length = 2 ∧
     ((List.range 2).map (backoff (fun _ => 2))).Chain' (· < ·)) :=
  ⟨⟨by decide, fun i hi => by simp [env3, hi], rfl, fun i => ⟨by norm_num, by norm_num⟩⟩,
   c3_rate_limited_k_times_then_verdict env3 parse3 (fun _ => 2) t0 2 "ok" _
     (by decide) (fun i hi => by simp [env3, hi]) rfl rfl rfl
     (fun i => ⟨by norm_num, by norm_num⟩)⟩

theorem runAttempts_all_retryable (env : Nat → Resp) (parse : String → Option Jobj)
    (jitter : Nat → ℚ) (t : TaskIn) :
    ∀ (rem att : Nat),
      (∀ i, i < rem → env (att + i) = Resp.rateLimit ∨ env (att + i) = Resp.apiErr) →
      (runAttempts env parse jitter t att rem).1 = none ∧
      (runAttempts env parse jitter t att rem).2.length = rem := by
  intro rem
  induction rem with
  | zero =>
      intro att _
      simp [runAttempts]
  | succ m ih =>
      intro att henv
      have h0 := henv 0 (Nat.succ_pos m)
      simp only [Nat.add_zero] at h0
      have hrec := ih (att + 1) (fun i hi => by
        have := henv (i + 1) (by omega)
        simpa [Nat.add_assoc, Nat.add_comm 1 i] using this)
      cases h0 with
      | inl h => simp [runAttempts, h, hrec.1, hrec.2]
      | inr h => simp [runAttempts, h, hrec.1, hrec.2]

/-- Claim C5: when every one of the `max_retries = 5` attempts fails with a
retryable error, the controller returns the terminal skipped outcome
(`None`) after exactly `max_retries` attempts (one sleep per consumed
attempt), and the driver step fed that outcome leaves the sink — durable
store and accumulator — untouched, raising nothing. -/
theorem c5_exhausted_budget_returns_skipped
    (env : Nat → Resp) (parse : String → Option Jobj) (jitter : Nat → ℚ) (t : TaskIn)
    (hfail : ∀ i, i < max_retries → env i = Resp.rateLimit ∨ env i = Resp.apiErr) :
    (analyze_pair_sequential env parse jitter t).1 = none ∧
    (analyze_pair_sequential env parse jitter t).2.length = max_retries ∧
    (∀ (st : DrvState) (tk : Nat × Persona),
        driverStep (fun _ _ _ => (analyze_pair_sequential env parse jitter t).1) st tk =
          { st with pace := st.pace + 1 }) := by
  have h := runAttempts_all_retryable env parse jitter t max_retries 0
    (fun i hi => by simpa using hfail i hi)
  refine ⟨h.1, h.2, fun st tk => ?_⟩
  simp [driverStep, analyze_pair_sequential] at h ⊢
  simp [h.1]

theorem c5_exhausted_budget_returns_skipped_witness :
    (∀ i, i < max_retries →
      (fun _ : Nat => Resp.rateLimit) i = Resp.rateLimit ∨
      (fun _ : Nat => Resp.rateLimit) i = Resp.apiErr) ∧
    ((analyze_pair_sequential (fun _ => Resp.rateLimit) (fun _ => none) (fun _ => 2) t0).1 = none ∧
     (analyze_pair_sequential (fun _ => Resp.rateLimit) (fun _ => none) (fun _ => 2) t0).2.length =
       max_retries ∧
     (∀ (st : DrvState) (tk : Nat × Persona),
        driverStep
          (fun _ _ _ =>
            (analyze_pair_sequential (fun _ => Resp.rateLimit) (fun _ => none) (fun _ => 2) t0).1)
          st tk = { st with pace := st.pace + 1 })) :=
  ⟨fun i _ => Or.inl rfl,
   c5_exhausted_budget_returns_skipped _ _ _ _ (fun i _ => Or.inl rfl)⟩

theorem runTasks_spec (ctrl : Nat → String → Persona → Option Record) :
    ∀ (tasks : List (Nat × Persona)) (st : DrvState),
      (runTasks ctrl tasks st).pace = st.pace + tasks.length ∧
      (runTasks ctrl tasks st).sink.acc = st.sink.acc ++ successRecs ctrl tasks ∧
      (flushSink (runTasks ctrl tasks st).sink).durable =
        (flushSink st.sink).durable ++ (successRecs ctrl tasks).map CsvLine.row ∧
      ((runTasks ctrl tasks st).sink.buffer = st.sink.buffer ∨
        (runTasks ctrl tasks st).sink.buffer = []) := by
  intro tasks
  induction tasks with
  | nil =>
      intro st
      simp [runTasks, successRecs]
  | cons tk rest ih =>
      intro st
      have hstep : runTasks ctrl (tk :: rest) st = runTasks ctrl rest (driverStep ctrl st tk) := rfl
      cases h : ctrl tk.1 (strategyFor tk.1) tk.2 with
      | some r =>
          have hds : driverStep ctrl st tk =
              { sink := { durable := st.sink.durable ++ (st.sink.buffer ++ [CsvLine.row r]),
                          buffer := [], acc := st.sink.acc ++ [r] },
                pace := st.pace + 1 } := by
            simp [driverStep, h, writeLine, flushSink]
          have hsr : successRecs ctrl (tk :: rest) = r :: successRecs ctrl rest := by
            simp [successRecs, h]
          obtain ⟨ihp, iha, ihd, ihb⟩ := ih (driverStep ctrl st tk)
          refine ⟨?_, ?_, ?_, ?_⟩
          · rw [hstep, ihp, hds]
            simp
            omega
          · rw [hstep, iha, hds, hsr]
            simp
          · rw [hstep, ihd, hds, hsr]
            simp [flushSink]
          · rw [hstep]
            rcases ihb with hb | hb
            · right
              rw [hb, hds]
            · right
              exact hb
      | none =>
          have hds : driverStep ctrl st tk = { st with pace := st.pace + 1 } := by
            simp [driverStep, h]
          have hsr : successRecs ctrl (tk :: rest) = successRecs ctrl rest := by
            simp [successRecs, h]
          obtain ⟨ihp, iha, ihd, ihb⟩ := ih (driverStep ctrl st tk)
          refine ⟨?_, ?_, ?_, ?_⟩
          · rw [hstep, ihp, hds]
            simp
            omega
          · rw [hstep, iha, hds, hsr]
          · rw [hstep, ihd, hds, hsr]
          · rw [hstep, hds]
            rw [hds] at ihb
            simpa using ihb

theorem successRecs_length (ctrl : Nat → String → Persona → Option Record) :
    ∀ tasks : List (Nat × Persona),
      (successRecs ctrl tasks).length +
        (tasks.filter (fun tk => (ctrl tk.1 (strategyFor tk.1) tk.2).isNone)).length =
      tasks.length := by
  intro tasks
  induction tasks with
  | nil => simp [successRecs]
  | cons tk rest ih =>
      cases h : ctrl tk.1 (strategyFor tk.1) tk.2 with
      | some r =>
          simp only [successRecs, List.filterMap_cons, List.filter_cons, h] at ih ⊢
          simp only [Option.isNone_some]
          simp only [Bool.false_eq_true, if_false]
          simp only [List.length_cons]
          omega
      | none =>
          simp only [successRecs, List.filterMap_cons, List.filter_cons, h] at ih ⊢
          simp only [Option.isNone_none, if_true]
          simp only [List.length_cons]
          omega

/-- Claim C6: with the image directory present, the batch driver processes
every enumerated task without raising, performs the pacing delay after
every task whether it succeeded or was skipped, and ends with an
accumulator holding exactly (number of tasks) minus (number of tasks whose
controller outcome was terminal failure) records. -/
theorem c6_driver_never_halts_and_counts
    (matcher : String → Option (Nat × Char)) (files : List String)
    (ctrl : Nat → String → Persona → Option Record) (initFile : Option (List CsvLine)) :
    (mainRun true matcher files ctrl initFile).earlyReturn = false ∧
    (mainRun true matcher files ctrl initFile).paceSleeps =
      (enumerateTasks (discoverPairs matcher files)).length ∧
    (mainRun true matcher files ctrl initFile).allResults.length =
      (enumerateTasks (discoverPairs matcher files)).length -
        ((enumerateTasks (discoverPairs matcher files)).filter
          (fun tk => (ctrl tk.1 (strategyFor tk.1) tk.2).isNone)).length := by
  obtain ⟨hp, ha, _, _⟩ :=
    runTasks_spec ctrl (enumerateTasks (discoverPairs matcher files))
      { sink := initialSink initFile, pace := 0 }
  have hlen := successRecs_length ctrl (enumerateTasks (discoverPairs matcher files))
  refine ⟨by simp [mainRun], ?_, ?_⟩
  · simp only [mainRun, if_true]
    rw [hp]
    simp
  · simp only [mainRun, if_true]
    simp only [flushSink]
    rw [ha]
    simp only [initialSink, List.nil_append, List.length_append]
    omega

theorem tasksForKey_fst {pairs : List (Nat × PairSides)} {personas : List Persona}
    {j : Nat} {tk : Nat × Persona} (h : tk ∈ tasksForKey pairs personas j) : tk.1 = j := by
  unfold tasksForKey at h
  cases hl : lookupPair pairs j with
  | none =>
      rw [hl] at h
      simp at h
  | some s =>
      rw [hl] at h
      cases he : eligible s with
      | false => simp [he] at h
      | true =>
          simp only [he, if_true] at h
          obtain ⟨p, _, rfl⟩ := List.mem_map.1 h
          rfl

theorem sortedKeys_nodup {pairs : List (Nat × PairSides)}
    (hnd : (pairs.map Prod.fst).Nodup) : (sortedKeys pairs).Nodup :=
  (List.perm_insertionSort _ _).nodup_iff.2 hnd

theorem keyblock_fst {pairs : List (Nat × PairSides)} {j : Nat} {x : Nat × String}
    (h : x ∈ (tasksForKey pairs PERSONAS j).map (fun tk => (tk.1, tk.2.id))) : x.1 = j := by
  obtain ⟨tk, htk, rfl⟩ := List.mem_map.1 h
  exact tasksForKey_fst htk

theorem keyblock_nodup (pairs : List (Nat × PairSides)) (j : Nat) :
    ((tasksForKey pairs PERSONAS j).map (fun tk => (tk.1, tk.2.id))).Nodup := by
  unfold tasksForKey
  cases lookupPair pairs j with
  | none => simp
  | some s =>
      cases he : eligible s with
      | false => simp [he]
      | true =>
          simp only [he, if_true, List.map_map]
          have h1 : (PERSONAS.map Persona.id).Nodup := by decide
          have h2 : ((PERSONAS.map Persona.id).map (fun s => (j, s))).Nodup :=
            List.Nodup.map (fun a b hab => by simpa using congrArg Prod.snd hab) h1
          simpa [List.map_map, Function.comp] using h2

theorem enumerateTasks_keys_nodup (pairs : List (Nat × PairSides))
    (hnd : (pairs.map Prod.fst).Nodup) :
    ((enumerateTasks pairs).map (fun tk => (tk.1, tk.2.id))).Nodup := by
  unfold enumerateTasks
  rw [List.map_flatMap, List.flatMap_def, List.nodup_flatten]
  constructor
  · intro l hl
    obtain ⟨j, _, rfl⟩ := List.mem_map.1 hl
    exact keyblock_nodup pairs j
  · have hkeys : (sortedKeys pairs).Nodup := sortedKeys_nodup hnd
    rw [List.pairwise_map]
    refine hkeys.imp fun hab => ?_
    intro x hxa hxb
    exact hab ((keyblock_fst hxa).symm.trans (keyblock_fst hxb))

theorem nodup_countP_beq_le_one {β : Type} [BEq β] [LawfulBEq β] {l : List β}
    (h : l.Nodup) (a : β) : l.countP (fun x => x == a) ≤ 1 := by
  induction l with
  | nil => simp
  | cons b rest ih =>
      rw [List.countP_cons]
      rcases List.nodup_cons.1 h with ⟨hb, hrest⟩
      by_cases hba : b = a
      · subst hba
        have hzero : rest.countP (fun x => x == b) = 0 :=
          List.countP_eq_zero.2 fun x hx hxb => hb ((beq_iff_eq.1 hxb) ▸ hx)
        simp [hzero]
      · have hfalse : (b == a) = false := by simpa using hba
        have := ih hrest
        simp only [hfalse, Bool.false_eq_true, if_false]
        omega

theorem countP_successRecs_le_one (ctrl : Nat → String → Persona → Option Record)
    (tasks : List (Nat × Persona))
    (hctrl : ∀ i st p r, ctrl i st p = some r → r.pairId = i ∧ r.personaId = p.id)
    (hnd : (tasks.map (fun tk => (tk.1, tk.2.id))).Nodup) (i : Nat) (pid : String) :
    (successRecs ctrl tasks).countP (fun r => r.pairId == i && r.personaId == pid) ≤ 1 := by
  unfold successRecs
  rw [List.countP_filterMap]
  have hle : List.countP
      (fun tk => (Option.map (fun r => r.pairId == i && r.personaId == pid)
        (ctrl tk.1 (strategyFor tk.1) tk.2)).getD false) tasks ≤
      List.countP (fun tk => ((tk.1, tk.2.id) : Nat × String) == (i, pid)) tasks := by
    refine List.countP_mono_left fun tk _ hq => ?_
    cases hf : ctrl tk.1 (strategyFor tk.1) tk.2 with
    | none =>
        rw [hf] at hq
        simp at hq
    | some r =>
        rw [hf] at hq
        simp only [Option.map_some', Option.getD_some, Bool.and_eq_true, beq_iff_eq] at hq
        obtain ⟨h1, h2⟩ := hctrl tk.1 (strategyFor tk.1) tk.2 r hf
        have hx : ((tk.1, tk.2.id) : Nat × String) = (i, pid) := by
          rw [← h1, ← h2]
          exact Prod.ext hq.1 hq.2
        simpa using hx
  refine le_trans hle ?_
  have hcount : List.countP (fun tk => ((tk.1, tk.2.id) : Nat × String) == (i, pid)) tasks =
      List.countP (fun x => x == ((i, pid) : Nat × String))
        (tasks.map (fun tk => (tk.1, tk.2.id))) := by
    rw [List.countP_map]
    rfl
  rw [hcount]
  exact nodup_countP_beq_le_one hnd _

/-- Claim C7: for every successful verdict the result sink appends exactly
one row to the durable store and one record to the accumulator, flushing
the write before the next task begins; no successful row ever sits in the
buffer across a task boundary, and — when the discovered pair ids are the
keys of a dict — at most one persisted row and one accumulator record
exist per (pair id, persona id) task. -/
theorem c7_sink_persists_each_success_exactly_once
    (matcher : String → Option (Nat × Char)) (files : List String)
    (ctrl : Nat → String → Persona → Option Record) (initFile : Option (List CsvLine))
    (hctrl : ∀ i st p r, ctrl i st p = some r → r.pairId = i ∧ r.personaId = p.id)
    (hnd : ((discoverPairs matcher files).map Prod.fst).Nodup) :
    (∀ (st : DrvState) (tk : Nat × Persona) (r : Record),
        ctrl tk.1 (strategyFor tk.1) tk.2 = some r →
          (driverStep ctrl st tk).sink.durable =
            st.sink.durable ++ st.sink.buffer ++ [CsvLine.row r] ∧
          (driverStep ctrl st tk).sink.buffer = [] ∧
          (driverStep ctrl st tk).sink.acc = st.sink.acc ++ [r]) ∧
    (∀ l₁ l₂, enumerateTasks (discoverPairs matcher files) = l₁ ++ l₂ →
        ∀ line ∈ (runTasks ctrl l₁ { sink := initialSink initFile, pace := 0 }).sink.buffer,
          ∀ r : Record, line ≠ CsvLine.row r) ∧
    (∀ (i : Nat) (pid : String),
        ((mainRun true matcher files ctrl initFile).fileAfter.getD []).countP
          (rowMatches i pid) ≤ 1 ∧
        (mainRun true matcher files ctrl initFile).allResults.countP
          (fun r => r.pairId == i && r.personaId == pid) ≤ 1) := by
  refine ⟨?_, ?_, ?_⟩
  · intro st tk r h
    refine ⟨?_, ?_, ?_⟩ <;> simp [driverStep, h, writeLine, flushSink]
  · intro l₁ l₂ hsplit line hline r
    obtain ⟨_, _, _, hb⟩ := runTasks_spec ctrl l₁ { sink := initialSink initFile, pace := 0 }
    rcases hb with hb | hb
    · rw [hb] at hline
      by_cases hi : initFile.isNone
      · simp [initialSink, hi] at hline
        subst hline
        simp
      · simp [initialSink, hi] at hline
    · rw [hb] at hline
      simp at hline
  · intro i pid
    obtain ⟨_, ha, hd, _⟩ := runTasks_spec ctrl (enumerateTasks (discoverPairs matcher files))
      { sink := initialSink initFile, pace := 0 }
    have hkeys := enumerateTasks_keys_nodup (discoverPairs matcher files) hnd
    have hbound := countP_successRecs_le_one ctrl
      (enumerateTasks (discoverPairs matcher files)) hctrl hkeys i pid
    constructor
    · have hfile : (mainRun true matcher files ctrl initFile).fileAfter.getD [] =
          (flushSink (initialSink initFile)).durable ++
            (successRecs ctrl (enumerateTasks (discoverPairs matcher files))).map
              CsvLine.row := by
        simp only [mainRun, if_true, Option.getD_some]
        exact hd
      rw [hfile, List.countP_append, List.countP_map]
      have hhead : ((flushSink (initialSink initFile)).durable).countP (rowMatches i pid) = 0 := by
        by_cases hi : initFile.isNone <;> simp [flushSink, initialSink, hi, rowMatches]
      have hcomp : (rowMatches i pid) ∘ CsvLine.row =
          (fun r => r.pairId == i && r.personaId == pid) := rfl
      rw [hhead, hcomp]
      simpa using hbound
    · have hacc : (mainRun true matcher files ctrl initFile).allResults =
          successRecs ctrl (enumerateTasks (discoverPairs matcher files)) := by
        simp only [mainRun, if_true, flushSink]
        rw [ha]
        simp [initialSink]
      rw [hacc]
      exact hbound

theorem c7_sink_persists_each_success_exactly_once_witness :
    ((∀ i st p r, ctrl7 i st p = some r → r.pairId = i ∧ r.personaId = p.id) ∧
      ((discoverPairs matcher0 files0).map Prod.fst).Nodup) ∧
    ((∀ (st : DrvState) (tk : Nat × Persona) (r : Record),
        ctrl7 tk.1 (strategyFor tk.1) tk.2 = some r →
          (driverStep ctrl7 st tk).sink.durable =
            st.sink.durable ++ st.sink.buffer ++ [CsvLine.row r] ∧
          (driverStep ctrl7 st tk).sink.buffer = [] ∧
          (driverStep ctrl7 st tk).sink.acc = st.sink.acc ++ [r]) ∧
     (∀ l₁ l₂, enumerateTasks (discoverPairs matcher0 files0) = l₁ ++ l₂ →
        ∀ line ∈ (runTasks ctrl7 l₁ { sink := initialSink none, pace := 0 }).sink.buffer,
          ∀ r : Record, line ≠ CsvLine.row r) ∧
     (∀ (i : Nat) (pid : String),
        ((mainRun true matcher0 files0 ctrl7 none).fileAfter.getD []).countP
          (rowMatches i pid) ≤ 1 ∧
        (mainRun true matcher0 files0 ctrl7 none).allResults.countP
          (fun r => r.pairId == i && r.personaId == pid) ≤ 1)) :=
  ⟨⟨fun i st p r h => by
      simp only [ctrl7, Option.some.injEq] at h
      subst h
      exact ⟨rfl, rfl⟩,
    by decide⟩,
   c7_sink_persists_each_success_exactly_once matcher0 files0 ctrl7 none
     (fun i st p r h => by
        simp only [ctrl7, Option.some.injEq] at h
        subst h
        exact ⟨rfl, rfl⟩)
     (by decide)⟩

/-- Claim C1 (code bug witness): `main` computes `write_header` as if it were
going to append, but then opens the output CSV with mode `"w"`, which
truncates.  Concretely: rerunning over a pre-existing non-empty output
file (header plus one prior row) leaves a final file holding only the
rerun's row — the prior row is destroyed rather than preserved, and the
file ends up with no header at all, contradicting the append-only
behaviour the claim describes and the source's own comment
`Open CSV in append mode, or write header if new`. -/
theorem c1_rerun_truncates_and_drops_header :
    mainRun true matcher0 files0 ctrl1 (some [CsvLine.header, CsvLine.row rec0]) =
      { fileAfter := some [CsvLine.row rec1], allResults := [rec1],
        paceSleeps := 12, earlyReturn := false } ∧
    CsvLine.row rec0 ∉ [CsvLine.row rec1] ∧
    CsvLine.header ∉ [CsvLine.row rec1] := by
  refine ⟨by decide, by decide, by decide⟩

/-- Claim C8 counterexample: the text of an empty JSON object is non-empty
content that parses successfully yet lacks every one of the expected
fields, and the invoker still produces a Success Outcome Record for it —
the missing fields are simply recorded as nulls (`"None"` for the
stringified ranking). -/
theorem c8_missing_fields_still_success :
    jget ([] : Jobj) "chosen_image" = none ∧
    jget ([] : Jobj) "rationale" = none ∧
    jget ([] : Jobj) "difficulty_ranking" = none ∧
    jget ([] : Jobj) "difficulty_reason" = none ∧
    (analyze_pair_sequential env8 parse8 (fun _ => 2) t0).1 =
      some { pairId := 1, strategy := "Authority", personaId := "P1_Traditionalist",
             choice := none, rationale := none, difficultyRanking := "None",
             difficultyReasoning := none, status := "Success" } := by
  refine ⟨rfl, rfl, rfl, rfl, by decide⟩

/-- Claim C8 amended: the invoker rejects — and the controller skips
immediately, with no retry and no sleep — any response that is empty or
whose content fails JSON parsing; but a JSON-parseable response is
accepted as a Success record even when the expected fields are absent,
their values recorded as nulls. -/
theorem c8_malformed_output_classification_amended
    (env : Nat → Resp) (parse : String → Option Jobj) (jitter : Nat → ℚ) (t : TaskIn) :
    (∀ c, env 0 = Resp.respond c → emptyContent c = true →
        analyze_pair_sequential env parse jitter t = (none, [])) ∧
    (∀ s, env 0 = Resp.respond (some s) → s.isEmpty = false → parse s = none →
        analyze_pair_sequential env parse jitter t = (none, [])) ∧
    (∀ s d, env 0 = Resp.respond (some s) → s.isEmpty = false → parse s = some d →
        analyze_pair_sequential env parse jitter t = (some (mkRecord t d), [])) := by
  refine ⟨?_, ?_, ?_⟩
  · intro c hc he
    simp [analyze_pair_sequential, max_retries, runAttempts, hc, he]
  · intro s hc hne hp
    simp [analyze_pair_sequential, max_retries, runAttempts, hc, emptyContent, hne, hp]
  · intro s d hc hne hp
    exact runAttempts_success_now env parse jitter t 0 4 s d hc hne hp

theorem c8_malformed_output_classification_amended_witness :
    analyze_pair_sequential (fun _ => Resp.respond (some "")) (fun _ => none)
      (fun _ => 2) t0 = (none, []) ∧
    analyze_pair_sequential (fun _ => Resp.respond (some "bad")) (fun _ => none)
      (fun _ => 2) t0 = (none, []) ∧
    analyze_pair_sequential env8 parse8 (fun _ => 2) t0 = (some (mkRecord t0 []), []) :=
  ⟨(c8_malformed_output_classification_amended (fun _ => Resp.respond (some ""))
      (fun _ => none) (fun _ => 2) t0).1 (some "") rfl rfl,
   (c8_malformed_output_classification_amended (fun _ => Resp.respond (some "bad"))
      (fun _ => none) (fun _ => 2) t0).2.1 "bad" rfl rfl rfl,
   (c8_malformed_output_classification_amended env8 parse8 (fun _ => 2) t0).2.2
     "\x7b\x7d" [] rfl rfl rfl⟩

theorem tasksForKey_eq_nil_of_none {pairs : List (Nat × PairSides)}
    {personas : List Persona} {j : Nat} (hl : lookupPair pairs j = none) :
    tasksForKey pairs personas j = [] := by
  unfold tasksForKey
  rw [hl]

theorem tasksForKey_eq_of_eligible {pairs : List (Nat × PairSides)}
    {personas : List Persona} {j : Nat} {s : PairSides}
    (hl : lookupPair pairs j = some s) (he : eligible s = true) :
    tasksForKey pairs personas j = personas.map (fun p => (j, p)) := by
  unfold tasksForKey
  rw [hl]
  simp [he]

theorem tasksForKey_eq_nil_of_ineligible {pairs : List (Nat × PairSides)}
    {personas : List Persona} {j : Nat} {s : PairSides}
    (hl : lookupPair pairs j = some s) (he : eligible s = false) :
    tasksForKey pairs personas j = [] := by
  unfold tasksForKey
  rw [hl]
  simp [he]

theorem mem_sortedKeys_of_lookup {pairs : List (Nat × PairSides)} {i : Nat} {s : PairSides}
    (hs : lookupPair pairs i = some s) : i ∈ sortedKeys pairs := by
  obtain ⟨e, hfe, _⟩ := Option.map_eq_some'.1 hs
  have hmem := List.mem_of_find?_eq_some hfe
  have hp1 : e.1 = i := by simpa using List.find?_some hfe
  have : i ∈ pairs.map Prod.fst := hp1 ▸ List.mem_map_of_mem Prod.fst hmem
  exact ((List.perm_insertionSort _ _).mem_iff).2 this

theorem mem_tasksForKey_iff {pairs : List (Nat × PairSides)} {personas : List Persona}
    {i j : Nat} {p : Persona} :
    (i, p) ∈ tasksForKey pairs personas j ↔
      (i = j ∧ p ∈ personas ∧ ∃ s, lookupPair pairs j = some s ∧ eligible s = true) := by
  cases hl : lookupPair pairs j with
  | none =>
      rw [tasksForKey_eq_nil_of_none hl]
      simp
  | some s =>
      cases he : eligible s with
      | false =>
          rw [tasksForKey_eq_nil_of_ineligible hl he]
          simp [he]
      | true =>
          rw [tasksForKey_eq_of_eligible hl he]
          constructor
          · intro h
            obtain ⟨q, hq, heq⟩ := List.mem_map.1 h
            obtain ⟨h1, h2⟩ := Prod.mk.injEq .. ▸ heq
            exact ⟨h1.symm, h2 ▸ hq, s, rfl, he⟩
          · rintro ⟨rfl, hp, _, _, _⟩
            exact List.mem_map_of_mem _ hp

theorem mem_enumerateTasks_iff (pairs : List (Nat × PairSides)) (i : Nat) (p : Persona) :
    (i, p) ∈ enumerateTasks pairs ↔
      (p ∈ PERSONAS ∧ ∃ s, lookupPair pairs i = some s ∧ eligible s = true) := by
  unfold enumerateTasks
  rw [List.mem_flatMap]
  constructor
  · rintro ⟨j, _, hmem⟩
    obtain ⟨rfl, hp, hs⟩ := mem_tasksForKey_iff.1 hmem
    exact ⟨hp, hs⟩
  · rintro ⟨hp, s, hs, he⟩
    exact ⟨i, mem_sortedKeys_of_lookup hs, mem_tasksForKey_iff.2 ⟨rfl, hp, s, hs, he⟩⟩

theorem enumerateTasks_fst_sorted (pairs : List (Nat × PairSides)) :
    List.Sorted (· ≤ ·) ((enumerateTasks pairs).map Prod.fst) := by
  unfold enumerateTasks
  rw [List.map_flatMap, List.flatMap_def]
  show List.Pairwise _ _
  rw [List.pairwise_flatten]
  constructor
  · intro l hl
    obtain ⟨j, _, rfl⟩ := List.mem_map.1 hl
    refine List.pairwise_of_forall_mem_list fun a ha b hb => ?_
    obtain ⟨tka, htka, rfl⟩ := List.mem_map.1 ha
    obtain ⟨tkb, htkb, rfl⟩ := List.mem_map.1 hb
    rw [tasksForKey_fst htka, tasksForKey_fst htkb]
  · rw [List.pairwise_map]
    have hsorted : List.Pairwise (fun a b => a ≤ b) (sortedKeys pairs) :=
      List.sorted_insertionSort _ _
    refine hsorted.imp fun hjj' => ?_
    intro x hx y hy
    obtain ⟨tkx, htkx, rfl⟩ := List.mem_map.1 hx
    obtain ⟨tky, htky, rfl⟩ := List.mem_map.1 hy
    rw [tasksForKey_fst htkx, tasksForKey_fst htky]
    exact hjj'

theorem flatMap_eq_single {β : Type} (f : Nat → List β) (i : Nat) :
    ∀ keys : List Nat, keys.Nodup → i ∈ keys →
      (∀ j ∈ keys, j ≠ i → f j = []) → keys.flatMap f = f i := by
  intro keys
  induction keys with
  | nil =>
      intro _ hi _
      cases hi
  | cons k rest ih =>
      intro hnd hi hf
      rw [List.flatMap_cons]
      rcases List.nodup_cons.1 hnd with ⟨hk, hrest⟩
      by_cases hki : k = i
      · subst hki
        have hz : rest.flatMap f = rest.flatMap (fun _ => ([] : List β)) :=
          List.flatMap_congr fun j hj => hf j (List.mem_cons_of_mem _ hj)
            (fun hji => hk (hji ▸ hj))
        rw [hz]
        simp
      · have hi' : i ∈ rest := by
          rcases List.mem_cons.1 hi with h | h
          · exact absurd h.symm hki
          · exact h
        rw [hf k (List.mem_cons_self k rest) hki, List.nil_append]
        exact ih hrest hi' fun j hj => hf j (List.mem_cons_of_mem _ hj)

theorem filter_enumerateTasks_eligible (pairs : List (Nat × PairSides))
    (hnd : (pairs.map Prod.fst).Nodup) (i : Nat) (s : PairSides)
    (hl : lookupPair pairs i = some s) (he : eligible s = true) :
    ((enumerateTasks pairs).filter (fun tk => tk.1 == i)).map Prod.snd = PERSONAS := by
  unfold enumerateTasks
  rw [List.filter_flatMap]
  have hother : ∀ j ∈ sortedKeys pairs, j ≠ i →
      (tasksForKey pairs PERSONAS j).filter (fun tk => tk.1 == i) = [] := by
    intro j _ hji
    refine List.filter_eq_nil_iff.2 fun tk htk => ?_
    rw [tasksForKey_fst htk]
    simp [hji]
  rw [flatMap_eq_single _ i (sortedKeys pairs) (sortedKeys_nodup hnd)
    (mem_sortedKeys_of_lookup hl) hother]
  have hself : (tasksForKey pairs PERSONAS i).filter (fun tk => tk.1 == i) =
      tasksForKey pairs PERSONAS i :=
    List.filter_eq_self.2 fun tk htk => by simp [tasksForKey_fst htk]
  rw [hself, tasksForKey_eq_of_eligible hl he, List.map_map]
  simp

theorem filter_enumerateTasks_ineligible (pairs : List (Nat × PairSides))
    (i : Nat) (s : PairSides)
    (hl : lookupPair pairs i = some s) (he : eligible s = false) :
    (enumerateTasks pairs).filter (fun tk => tk.1 == i) = [] := by
  unfold enumerateTasks
  rw [List.filter_flatMap, List.flatMap_eq_nil_iff]
  intro j _
  by_cases hji : j = i
  · subst hji
    rw [tasksForKey_eq_nil_of_ineligible hl he, List.filter_nil]
  · refine List.filter_eq_nil_iff.2 fun tk htk => ?_
    rw [tasksForKey_fst htk]
    simp [hji]

/-- Claim C2: for every discovered pair map the enumerated task sequence
holds exactly the (pair, persona) tasks whose pair has both an "A" and a
"B" reference; its pair ids appear in ascending order; within each
eligible pair the personas are exactly the fixed roster in roster order;
pairs missing a side contribute no task; and an empty pair map enumerates
the empty sequence. -/
theorem c2_task_enumeration_exact (pairs : List (Nat × PairSides))
    (hnd : (pairs.map Prod.fst).Nodup) :
    (∀ (i : Nat) (p : Persona), (i, p) ∈ enumerateTasks pairs ↔
        (p ∈ PERSONAS ∧ ∃ s, lookupPair pairs i = some s ∧ eligible s = true)) ∧
    List.Sorted (· ≤ ·) ((enumerateTasks pairs).map Prod.fst) ∧
    (∀ (i : Nat) (s : PairSides), lookupPair pairs i = some s → eligible s = true →
        ((enumerateTasks pairs).filter (fun tk => tk.1 == i)).map Prod.snd = PERSONAS) ∧
    (∀ (i : Nat) (s : PairSides), lookupPair pairs i = some s → eligible s = false →
        (enumerateTasks pairs).filter (fun tk => tk.1 == i) = []) ∧
    enumerateTasks [] = [] :=
  ⟨fun i p => mem_enumerateTasks_iff pairs i p,
   enumerateTasks_fst_sorted pairs,
   fun i s hl he => filter_enumerateTasks_eligible pairs hnd i s hl he,
   fun i s hl he => filter_enumerateTasks_ineligible pairs i s hl he,
   rfl⟩

theorem c2_task_enumeration_exact_witness :
    (pairs0.map Prod.fst).Nodup ∧
    ((∀ (i : Nat) (p : Persona), (i, p) ∈ enumerateTasks pairs0 ↔
        (p ∈ PERSONAS ∧ ∃ s, lookupPair pairs0 i = some s ∧ eligible s = true)) ∧
     List.Sorted (· ≤ ·) ((enumerateTasks pairs0).map Prod.fst) ∧
     (∀ (i : Nat) (s : PairSides), lookupPair pairs0 i = some s → eligible s = true →
        ((enumerateTasks pairs0).filter (fun tk => tk.1 == i)).map Prod.snd = PERSONAS) ∧
     (∀ (i : Nat) (s : PairSides), lookupPair pairs0 i = some s → eligible s = false →
        (enumerateTasks pairs0).filter (fun tk => tk.1 == i) = []) ∧
     enumerateTasks [] = []) :=
  ⟨by decide, c2_task_enumeration_exact pairs0 (by decide)⟩
